import Mathlib

/-
Verification of the conditional tool-gating and single-turn routing protocol
of the console support-agent chatbot (src/main.py).

The pure, locally-decided logic of the program is embedded shallowly:
  - the pydantic context model becomes a Lean structure;
  - the two tool-gate predicates become Boolean functions;
  - triage-output normalization (strip + lower) is embedded over List Char;
  - handle_query becomes a pure function parameterized by the triage output
    that the external inference backend returns;
  - the session loop becomes a fold over a list of input events, where the
    behavior of the external backend on each line (answer or raise) is part
    of the event.
The inference backend itself (prompt-in, text-out) is external and is
modelled as oracle data supplied to these functions, per the source.
-/

namespace CliAgent

/-- The pydantic `UserContext` model (src/main.py lines 9-12), with the same
field defaults: `name` and `issue_type` default to `None`, the premium flag
to `False`. -/
structure UserContext where
  name : Option String := none
  is_premium_user : Bool := false
  issue_type : Option String := none
deriving Repr, DecidableEq

/-- Python `getattr(obj, attr, dflt)`: `none` models an absent attribute,
`some v` an attribute bound to `v`. -/
def getattrD {α : Type} (attr : Option α) (dflt : α) : α := attr.getD dflt

/-- The gate of the refund tool over a raw attribute lookup:
`lambda tool, context: getattr(context, "is_premium_user", False)`
(src/main.py line 49). -/
def refund_is_enabled_raw (ipu : Option Bool) : Bool := getattrD ipu false

/-- The refund gate evaluated on a `UserContext`, where the attribute is
always present (it is a declared pydantic field). -/
def refund_is_enabled (ctx : UserContext) : Bool :=
  refund_is_enabled_raw (some ctx.is_premium_user)

/-- The gate of the restart tool over a raw attribute lookup:
`lambda tool, context: getattr(context, "issue_type", None) == "technical"`
(src/main.py line 58). In Python, `None == "technical"` is `False`, so the
comparison succeeds only on an actual string equal to "technical". -/
def restart_is_enabled_raw (it : Option (Option String)) : Bool :=
  getattrD it none == some "technical"

/-- The restart gate evaluated on a `UserContext`. -/
def restart_is_enabled (ctx : UserContext) : Bool :=
  restart_is_enabled_raw (some ctx.issue_type)

/-- Return value of `refund_tool` (src/main.py lines 42-47): a confirmation
message referencing `context.name or "user"` (Python `or` falls back on
`None` and on the empty string). -/
def refund_tool_msg (ctx : UserContext) : String :=
  "✅ Refund processed for " ++
    (match ctx.name with
      | some n => if n.isEmpty then "user" else n
      | none => "user") ++ "."

/-- Return value of `restart_service_tool` (src/main.py lines 51-56). -/
def restart_service_tool_msg : String := "🔄 Service restarted successfully."

/-- The two function tools of the program. -/
inductive ToolName where
  | refund
  | restart
deriving Repr, DecidableEq

/-- The gate predicate attached to each tool (`is_enabled`). -/
def tool_is_enabled : ToolName → UserContext → Bool
  | .refund, ctx => refund_is_enabled ctx
  | .restart, ctx => restart_is_enabled ctx

/-- An agent: a name and a fixed list of gated tools. The instruction text
is prompt data for the external backend and plays no role in the local
logic, so it is not modelled. -/
structure Agent where
  name : String
  tools : List ToolName := []
deriving Repr, DecidableEq

/-- `triage_agent` (src/main.py lines 62-71): no tools. -/
def triage_agent : Agent := { name := "Triage Bot" }

/-- `billing_agent` (src/main.py lines 73-80): tools=[refund_tool]. -/
def billing_agent : Agent := { name := "Billing Bot", tools := [.refund] }

/-- `tech_agent` (src/main.py lines 82-89): tools=[restart_service_tool]. -/
def tech_agent : Agent := { name := "Tech Support Bot", tools := [.restart] }

/-- `general_agent` (src/main.py lines 91-97): no tools. -/
def general_agent : Agent := { name := "General Bot" }

/-- The set of actions offered to the inference backend for one call: every
tool of the agent whose gate predicate evaluates to true on the current
context (the agents SDK re-evaluates `is_enabled` per call). -/
def offeredTools (a : Agent) (ctx : UserContext) : List ToolName :=
  a.tools.filter (fun t => tool_is_enabled t ctx)

/-- Strip both ends of a character list with respect to whitespace, as
Python `str.strip()` does: drop leading whitespace, then trailing
whitespace. -/
def stripList (l : List Char) : List Char :=
  List.rdropWhile Char.isWhitespace (l.dropWhile Char.isWhitespace)

/-- Python `str.strip()`. -/
def pyStrip (s : String) : String := String.mk (stripList s.data)

/-- Python `str.lower()` (ASCII case folding, which covers the three triage
tokens the program compares against). -/
def pyLower (s : String) : String := String.mk (s.data.map Char.toLower)

/-- Normalization of the triage output:
`triage_result.final_output.strip().lower()` (src/main.py line 108). -/
def normalize (s : String) : String := pyLower (pyStrip s)

/-- Python truthiness of a string: `not s` is true exactly on the empty
string. `strFalsy s = true` means `not s` in Python. -/
def strFalsy (s : String) : Bool := s.data.isEmpty

/-- The four responders of the system. -/
inductive ResponderId where
  | triageBot
  | billingBot
  | techBot
  | generalBot
deriving Repr, DecidableEq

/-- The branch on the normalized category (src/main.py lines 111-133):
exact string equality against "billing" and "technical", with General as
the default branch for every other value; no error is raised for unknown
categories. -/
def dispatch (category : String) : ResponderId :=
  if category = "billing" then .billingBot
  else if category = "technical" then .techBot
  else .generalBot

/-- The `Agent` value each responder id denotes. -/
def agentOf : ResponderId → Agent
  | .triageBot => triage_agent
  | .billingBot => billing_agent
  | .techBot => tech_agent
  | .generalBot => general_agent

/-- What one `handle_query` call does locally, given the triage output the
backend produced: which responder was dispatched, the prompt it received,
the context after the unconditional `issue_type` write, and the full list
of responder invocations of the call, each with the context it was passed
(the context is passed by reference, so the dispatched responder sees the
mutated record). -/
structure DispatchResult where
  responder : ResponderId
  respPrompt : String
  finalContext : UserContext
  invoked : List (ResponderId × UserContext)
deriving Repr, DecidableEq

/-- The context after the triage step of `handle_query`:
`context.issue_type = category` (src/main.py line 109), performed
unconditionally on the normalized triage output. -/
def contextAfterTriage (ctx : UserContext) (triageOut : String) : UserContext :=
  { ctx with issue_type := some (normalize triageOut) }

/-- Shallow embedding of `handle_query` (src/main.py lines 100-133). The
argument `triageOut` is the `final_output` of the triage call, produced by
the external backend; everything after that point is local logic: normalize,
store into the context, branch, and invoke exactly one responder with the
original prompt and the mutated context. -/
def handle_query (triageOut : String) (prompt : String) (ctx : UserContext) :
    DispatchResult :=
  let category := normalize triageOut
  let ctxd := contextAfterTriage ctx triageOut
  { responder := dispatch category
    respPrompt := prompt
    finalContext := ctxd
    invoked := [(.triageBot, ctx), (dispatch category, ctxd)] }

/-- Backend behavior on one non-blank line: the triage call may raise; else
it yields a triage output, and the dispatched responder call may raise or
yield its final output. This is the external (oracle) part of one loop
iteration. -/
inductive LineBehavior where
  | triageRaise (e : String)
  | respRaise (triageOut : String) (e : String)
  | respond (triageOut : String) (respOut : String)
deriving Repr, DecidableEq

/-- Whether the backend behavior raises during handling, and with which
exception text. -/
def raisesWith : LineBehavior → Option String
  | .triageRaise e => some e
  | .respRaise _ e => some e
  | .respond _ _ => none

/-- One external input event of the session loop: either a user input line
(with the backend behavior for it) or a keyboard interrupt arriving for
this iteration. -/
inductive InEvent where
  | interrupt
  | line (s : String) (b : LineBehavior)
deriving Repr, DecidableEq

/-- One console output of the loop. `greeting` and `farewell` are the fixed
banner lines; `response r` is the line `AI Bot: r`; `errorMsg e` is the
line `⚠️ Error: e`. -/
inductive OutEvent where
  | greeting
  | response (s : String)
  | errorMsg (e : String)
  | farewell
deriving Repr, DecidableEq

/-- Effect of one loop-body iteration on an input line (src/main.py lines
142-155): strip the prompt; a blank result is skipped with `continue`;
otherwise run `handle_query`, where an exception raised by a backend call
is caught by the outer handler and printed. The `invoked` field records the
responder invocations that actually happened, with their contexts. -/
structure StepResult where
  ctx : UserContext
  outputs : List OutEvent
  invoked : List (ResponderId × UserContext)
deriving Repr, DecidableEq

def processLine (ctx : UserContext) (s : String) (b : LineBehavior) : StepResult :=
  let prompt := pyStrip s
  if strFalsy prompt then { ctx := ctx, outputs := [], invoked := [] }
  else
    match b with
    | .triageRaise e =>
        { ctx := ctx, outputs := [.errorMsg e], invoked := [(.triageBot, ctx)] }
    | .respRaise t e =>
        let r := handle_query t prompt ctx
        { ctx := r.finalContext, outputs := [.errorMsg e], invoked := r.invoked }
    | .respond t out =>
        let r := handle_query t prompt ctx
        { ctx := r.finalContext, outputs := [.response out], invoked := r.invoked }

/-- How a session run ended: by the interrupt handler (farewell + break) or
because the supplied event list was exhausted (the session is still
running, waiting for input). -/
inductive Termination where
  | byInterrupt
  | stillRunning
deriving Repr, DecidableEq

/-- The observable outcome of running the loop on a list of events. -/
structure SessionResult where
  ctx : UserContext
  outputs : List OutEvent
  invoked : List (ResponderId × UserContext)
  term : Termination
deriving Repr, DecidableEq

/-- The loop of `run_loop` (src/main.py lines 141-155), from a given
context state: an interrupt prints the farewell and breaks; a line event is
processed by the loop body and the loop continues. -/
def run_loop_from (ctx : UserContext) : List InEvent → SessionResult
  | [] => { ctx := ctx, outputs := [], invoked := [], term := .stillRunning }
  | .interrupt :: _ =>
      { ctx := ctx, outputs := [.farewell], invoked := [], term := .byInterrupt }
  | .line s b :: rest =>
      let st := processLine ctx s b
      let r := run_loop_from st.ctx rest
      { ctx := r.ctx
        outputs := st.outputs ++ r.outputs
        invoked := st.invoked ++ r.invoked
        term := r.term }

/-- The context constructed at session start:
`UserContext(name="Omer", is_premium_user=True)` (src/main.py line 138);
`issue_type` keeps its `None` default. -/
def initialContext : UserContext :=
  { name := some "Omer", is_premium_user := true }

/-- `run_loop` (src/main.py lines 137-155): build the initial context,
print the greeting, then run the loop on the event stream. -/
def run_loop (events : List InEvent) : SessionResult :=
  let r := run_loop_from initialContext events
  { r with outputs := .greeting :: r.outputs }

/-- Python truthiness of an `os.getenv` result: falsy when the variable is
absent or bound to the empty string. -/
def envTruthy : Option String → Bool
  | none => false
  | some s => !(strFalsy s)

/-- Module-level startup (src/main.py lines 20-23): read `GEMINI_API_KEY`
from the environment and raise `ValueError` when it is falsy, before any
agent is built and before the loop starts. -/
def startup (env : String → Option String) : Except String Unit :=
  if envTruthy (env "GEMINI_API_KEY") then .ok ()
  else .error "GEMINI_API_KEY is not set."

/-- The whole process: startup, then the session loop. A startup error
means the loop is never entered and no query is processed. -/
def program (env : String → Option String) (events : List InEvent) :
    Except String SessionResult :=
  match startup env with
  | .error e => .error e
  | .ok _ => .ok (run_loop events)

/-! ### Character-level facts about ASCII case folding and whitespace -/

theorem char_toNat_inj {c d : Char} (h : c.toNat = d.toNat) : c = d :=
  Char.eq_of_val_eq (UInt32.eq_of_toBitVec_eq (BitVec.eq_of_toNat_eq h))

theorem char_toNat_ofNat_valid (n : Nat) (h : n.isValidChar) :
    (Char.ofNat n).toNat = n := by
  rw [Char.ofNat, dif_pos h]
  rfl

theorem toLower_toNat (c : Char) :
    c.toLower.toNat
      = if 65 ≤ c.toNat ∧ c.toNat ≤ 90 then c.toNat + 32 else c.toNat := by
  have hdef : c.toLower
      = if c.toNat ≥ 65 ∧ c.toNat ≤ 90 then Char.ofNat (c.toNat + 32) else c := rfl
  rw [hdef]
  by_cases h : 65 ≤ c.toNat ∧ c.toNat ≤ 90
  · rw [if_pos h, if_pos h, char_toNat_ofNat_valid _ (Or.inl (by omega))]
  · rw [if_neg h, if_neg h]

theorem isWhitespace_iff (c : Char) :
    c.isWhitespace = true
      ↔ c.toNat = 32 ∨ c.toNat = 9 ∨ c.toNat = 13 ∨ c.toNat = 10 := by
  constructor
  · intro h
    simp only [Char.isWhitespace, Bool.or_eq_true, decide_eq_true_eq] at h
    rcases h with ((h | h) | h) | h <;> subst h <;> decide
  · intro h
    have hc : c = ' ' ∨ c = '\t' ∨ c = '\r' ∨ c = '\n' := by
      rcases h with h | h | h | h
      · exact Or.inl (char_toNat_inj (by rw [h]; decide))
      · exact Or.inr (Or.inl (char_toNat_inj (by rw [h]; decide)))
      · exact Or.inr (Or.inr (Or.inl (char_toNat_inj (by rw [h]; decide))))
      · exact Or.inr (Or.inr (Or.inr (char_toNat_inj (by rw [h]; decide))))
    rcases hc with h | h | h | h <;> subst h <;> decide

theorem isWhitespace_toLower (c : Char) :
    c.toLower.isWhitespace = c.isWhitespace := by
  have ht := toLower_toNat c
  by_cases h : 65 ≤ c.toNat ∧ c.toNat ≤ 90
  · rw [if_pos h] at ht
    have h2 : c.toLower.isWhitespace = false := by
      rw [Bool.eq_false_iff]
      intro hw
      have := (isWhitespace_iff _).mp hw
      omega
    have h3 : c.isWhitespace = false := by
      rw [Bool.eq_false_iff]
      intro hw
      have := (isWhitespace_iff _).mp hw
      omega
    rw [h2, h3]
  · rw [if_neg h] at ht
    cases hw : c.isWhitespace
    · rw [Bool.eq_false_iff]
      intro hw2
      have h4 := (isWhitespace_iff _).mp hw2
      have h5 : c.isWhitespace = true := (isWhitespace_iff c).mpr (by omega)
      rw [hw] at h5
      exact Bool.false_ne_true h5
    · have h4 := (isWhitespace_iff _).mp hw
      exact (isWhitespace_iff _).mpr (by omega)

theorem toLower_toLower (c : Char) : c.toLower.toLower = c.toLower := by
  apply char_toNat_inj
  rw [toLower_toNat (c.toLower), toLower_toNat c]
  by_cases h : 65 ≤ c.toNat ∧ c.toNat ≤ 90
  · simp only [if_pos h]
    rw [if_neg (by omega)]
  · simp only [if_neg h]

/-! ### Facts about stripping -/

theorem head?_dropWhile_false {α : Type} (p : α → Bool) (l : List α) (a : α)
    (h : (l.dropWhile p).head? = some a) : p a = false := by
  have hd := List.head?_dropWhile_not p l
  rw [h] at hd
  exact hd

theorem dropWhile_of_head_false {α : Type} (p : α → Bool) (l : List α)
    (h : ∀ a, l.head? = some a → p a = false) : l.dropWhile p = l := by
  cases l with
  | nil => rfl
  | cons a t => exact List.dropWhile_cons_of_neg (by simp [h a rfl])

theorem head?_append_of_head? {α : Type} {y t : List α} {a : α}
    (hy : y.head? = some a) : (y ++ t).head? = some a := by
  cases y with
  | nil => simp at hy
  | cons b u => simpa using hy

theorem stripList_idem (l : List Char) : stripList (stripList l) = stripList l := by
  unfold stripList
  have h1 : List.dropWhile Char.isWhitespace
        (List.rdropWhile Char.isWhitespace (l.dropWhile Char.isWhitespace))
      = List.rdropWhile Char.isWhitespace (l.dropWhile Char.isWhitespace) := by
    apply dropWhile_of_head_false
    intro a ha
    obtain ⟨t, ht⟩ := List.rdropWhile_prefix Char.isWhitespace
      (l.dropWhile Char.isWhitespace)
    have hh : (l.dropWhile Char.isWhitespace).head? = some a := by
      rw [← ht]
      exact head?_append_of_head? ha
    exact head?_dropWhile_false _ _ _ hh
  rw [h1, List.rdropWhile_idempotent]

theorem dropWhile_map_toLower (l : List Char) :
    (l.map Char.toLower).dropWhile Char.isWhitespace
      = (l.dropWhile Char.isWhitespace).map Char.toLower := by
  have hcomp : (Char.isWhitespace ∘ Char.toLower) = Char.isWhitespace := by
    funext a
    exact isWhitespace_toLower a
  rw [List.dropWhile_map, hcomp]

theorem stripList_map_toLower (l : List Char) :
    stripList (l.map Char.toLower) = (stripList l).map Char.toLower := by
  unfold stripList List.rdropWhile
  rw [dropWhile_map_toLower, ← List.map_reverse, dropWhile_map_toLower,
    ← List.map_reverse]

theorem stripList_eq_nil (l : List Char) (h : ∀ c ∈ l, c.isWhitespace = true) :
    stripList l = [] := by
  unfold stripList
  rw [List.dropWhile_eq_nil_iff.mpr (by intro x hx; exact h x hx)]
  rfl

/-! ### Facts about the loop body and the loop -/

theorem processLine_of_blank (ctx : UserContext) (s : String) (b : LineBehavior)
    (h : strFalsy (pyStrip s) = true) :
    processLine ctx s b = { ctx := ctx, outputs := [], invoked := [] } := by
  unfold processLine
  simp only [h, if_true]

theorem processLine_ctx_cases (ctx : UserContext) (s : String) (b : LineBehavior) :
    (processLine ctx s b).ctx = ctx
    ∨ ∃ t : String, (processLine ctx s b).ctx = contextAfterTriage ctx t := by
  by_cases h : strFalsy (pyStrip s) = true
  · rw [processLine_of_blank ctx s b h]
    exact Or.inl rfl
  · unfold processLine
    simp only [eq_false_of_ne_true h, Bool.false_eq_true, if_false]
    cases b with
    | triageRaise e => exact Or.inl rfl
    | respRaise t e => exact Or.inr ⟨t, rfl⟩
    | respond t out => exact Or.inr ⟨t, rfl⟩

theorem processLine_frame (ctx : UserContext) (s : String) (b : LineBehavior) :
    (processLine ctx s b).ctx.name = ctx.name
    ∧ (processLine ctx s b).ctx.is_premium_user = ctx.is_premium_user := by
  rcases processLine_ctx_cases ctx s b with h | ⟨t, h⟩ <;> rw [h] <;> exact ⟨rfl, rfl⟩

theorem run_loop_from_frame (evs : List InEvent) : ∀ ctx : UserContext,
    (run_loop_from ctx evs).ctx.name = ctx.name
    ∧ (run_loop_from ctx evs).ctx.is_premium_user = ctx.is_premium_user := by
  induction evs with
  | nil => intro ctx; exact ⟨rfl, rfl⟩
  | cons e rest ih =>
    intro ctx
    cases e with
    | interrupt => exact ⟨rfl, rfl⟩
    | line s b =>
      have h1 := processLine_frame ctx s b
      have h2 := ih (processLine ctx s b).ctx
      exact ⟨h2.1.trans h1.1, h2.2.trans h1.2⟩

theorem processLine_invoked_ctx (ctx : UserContext) (s : String) (b : LineBehavior) :
    ∀ pr ∈ (processLine ctx s b).invoked,
      pr.2 = ctx ∨ ∃ t : String, pr.2 = contextAfterTriage ctx t := by
  unfold processLine
  by_cases h : strFalsy (pyStrip s) = true
  · simp only [h, if_true]
    intro pr hpr
    simp at hpr
  · simp only [eq_false_of_ne_true h, Bool.false_eq_true, if_false]
    cases b with
    | triageRaise e =>
      intro pr hpr
      simp only [List.mem_singleton] at hpr
      subst hpr
      exact Or.inl rfl
    | respRaise t e =>
      intro pr hpr
      simp only [handle_query, List.mem_cons, List.mem_singleton] at hpr
      rcases hpr with hpr | hpr | hpr
      · subst hpr; exact Or.inl rfl
      · subst hpr; exact Or.inr ⟨t, rfl⟩
      · simp at hpr
    | respond t out =>
      intro pr hpr
      simp only [handle_query, List.mem_cons, List.mem_singleton] at hpr
      rcases hpr with hpr | hpr | hpr
      · subst hpr; exact Or.inl rfl
      · subst hpr; exact Or.inr ⟨t, rfl⟩
      · simp at hpr

theorem run_loop_from_invoked_premium (evs : List InEvent) : ∀ ctx : UserContext,
    ctx.is_premium_user = true →
    ∀ pr ∈ (run_loop_from ctx evs).invoked, pr.2.is_premium_user = true := by
  induction evs with
  | nil =>
    intro ctx _ pr hpr
    simp [run_loop_from] at hpr
  | cons e rest ih =>
    intro ctx hctx pr hpr
    cases e with
    | interrupt => simp [run_loop_from] at hpr
    | line s b =>
      have hm : pr ∈ (processLine ctx s b).invoked
          ∨ pr ∈ (run_loop_from (processLine ctx s b).ctx rest).invoked := by
        simpa [run_loop_from] using List.mem_append.mp hpr
      rcases hm with hm | hm
      · rcases processLine_invoked_ctx ctx s b pr hm with h | ⟨t, h⟩
        · rw [h]; exact hctx
        · rw [h]; exact hctx
      · exact ih (processLine ctx s b).ctx
          ((processLine_frame ctx s b).2.trans hctx) pr hm

theorem run_loop_from_head_invoked (evs : List InEvent) :
    ∀ ctx : UserContext, ∀ pr : ResponderId × UserContext,
    (run_loop_from ctx evs).invoked.head? = some pr
    → pr = (ResponderId.triageBot, ctx) := by
  induction evs with
  | nil => intro ctx pr h; simp [run_loop_from] at h
  | cons e rest ih =>
    intro ctx pr h
    cases e with
    | interrupt => simp [run_loop_from] at h
    | line s b =>
      by_cases hb : strFalsy (pyStrip s) = true
      · rw [show (run_loop_from ctx (InEvent.line s b :: rest)).invoked
              = (processLine ctx s b).invoked
                ++ (run_loop_from (processLine ctx s b).ctx rest).invoked from rfl,
            processLine_of_blank ctx s b hb] at h
        simp only [List.nil_append] at h
        exact ih ctx pr h
      · rw [show (run_loop_from ctx (InEvent.line s b :: rest)).invoked
              = (processLine ctx s b).invoked
                ++ (run_loop_from (processLine ctx s b).ctx rest).invoked from rfl] at h
        have hfirst : (processLine ctx s b).invoked.head?
            = some (ResponderId.triageBot, ctx) := by
          unfold processLine
          simp only [eq_false_of_ne_true hb, Bool.false_eq_true, if_false]
          cases b with
          | triageRaise e => rfl
          | respRaise t e => rfl
          | respond t out => rfl
        rw [head?_append_of_head? hfirst] at h
        exact (Option.some_inj.mp h).symm

theorem term_byInterrupt_mem (evs : List InEvent) : ∀ ctx : UserContext,
    (run_loop_from ctx evs).term = Termination.byInterrupt
    → InEvent.interrupt ∈ evs := by
  induction evs with
  | nil => intro ctx h; simp [run_loop_from] at h
  | cons e rest ih =>
    intro ctx h
    cases e with
    | interrupt => exact List.mem_cons_self _ _
    | line s b =>
      have h2 : (run_loop_from (processLine ctx s b).ctx rest).term
          = Termination.byInterrupt := h
      exact List.mem_cons_of_mem _ (ih (processLine ctx s b).ctx h2)

theorem processLine_raises_outputs (ctx : UserContext) (s e : String)
    (b : LineBehavior) (hb : raisesWith b = some e)
    (hs : strFalsy (pyStrip s) = false) :
    (processLine ctx s b).outputs = [OutEvent.errorMsg e] := by
  unfold processLine
  simp only [hs, Bool.false_eq_true, if_false]
  cases b with
  | triageRaise e2 =>
    simp only [raisesWith, Option.some_inj] at hb
    rw [hb]
  | respRaise t e2 =>
    simp only [raisesWith, Option.some_inj] at hb
    rw [hb]
  | respond t out => simp [raisesWith] at hb

/-! ### The claimed properties -/

/-- Claim C1: for every prompt and context, `handle_query` invokes exactly one
responder beyond triage, chosen by exact string equality on the normalized
triage output: "billing" selects the Billing responder, "technical" the
Technical responder, and any other normalized value (empty, multi-word,
the literal "general", unrecognized tokens) falls through to the General
responder; the function is total, so no error is raised for unknown
categories. -/
theorem handle_query_single_dispatch (t p : String) (ctx : UserContext) :
    (handle_query t p ctx).invoked.map Prod.fst
        = [ResponderId.triageBot, (handle_query t p ctx).responder]
    ∧ (handle_query t p ctx).responder
        = (if normalize t = "billing" then ResponderId.billingBot
           else if normalize t = "technical" then ResponderId.techBot
           else ResponderId.generalBot)
    ∧ (normalize t ≠ "billing" → normalize t ≠ "technical" →
        (handle_query t p ctx).responder = ResponderId.generalBot) := by
  refine ⟨rfl, rfl, ?_⟩
  intro h1 h2
  show dispatch (normalize t) = ResponderId.generalBot
  unfold dispatch
  rw [if_neg h1, if_neg h2]

/-- Witness for C1 at the unrecognized triage output "General" (which
normalizes to the literal "general"): the General responder is the one
dispatched. -/
theorem handle_query_single_dispatch_witness :
    (handle_query " General " "hello" initialContext).responder
      = ResponderId.generalBot :=
  (handle_query_single_dispatch " General " "hello" initialContext).2.2
    (by decide) (by decide)

/-- Claim C2: after every `handle_query` call the `issue_type` field of the context equals
the normalized (stripped, lower-cased) triage output of that call,
whichever responder was dispatched; the write is unconditional, so an
unrecognized token is stored as well. -/
theorem issue_type_stores_normalized_triage (t p : String) (ctx : UserContext) :
    (handle_query t p ctx).finalContext.issue_type = some (normalize t)
    ∧ normalize t = pyLower (pyStrip t) := ⟨rfl, rfl⟩

/-- Claim C3: the refund gate returns false on every context whose premium flag
is false and on a context where the attribute is absent (the `getattr`
default), so the refund action is never in the offered-action set of any
agent for such a call; it is offered exactly when the agent carries the
refund tool and `is_premium_user` is true. -/
theorem refund_gate_premium_only (ctx : UserContext) (a : Agent) :
    refund_is_enabled_raw none = false
    ∧ (ctx.is_premium_user = false → refund_is_enabled ctx = false)
    ∧ (ctx.is_premium_user = false → ToolName.refund ∉ offeredTools a ctx)
    ∧ (ToolName.refund ∈ offeredTools a ctx ↔
        ToolName.refund ∈ a.tools ∧ ctx.is_premium_user = true) := by
  refine ⟨rfl, ?_, ?_, ?_⟩
  · intro h
    simp [refund_is_enabled, refund_is_enabled_raw, getattrD, h]
  · intro h hm
    rw [offeredTools, List.mem_filter] at hm
    have h2 := hm.2
    simp [tool_is_enabled, refund_is_enabled, refund_is_enabled_raw, getattrD, h] at h2
  · rw [offeredTools, List.mem_filter]
    constructor
    · rintro ⟨h1, h2⟩
      refine ⟨h1, ?_⟩
      simpa [tool_is_enabled, refund_is_enabled, refund_is_enabled_raw, getattrD]
        using h2
    · rintro ⟨h1, h2⟩
      refine ⟨h1, ?_⟩
      simp [tool_is_enabled, refund_is_enabled, refund_is_enabled_raw, getattrD, h2]

/-- Witness for C3 (Scenario D of the spec): a non-premium context that was
triaged to billing still gets no refund action in the offered set of the
Billing agent. -/
theorem refund_gate_premium_only_witness :
    ToolName.refund ∉ offeredTools billing_agent
      { name := some "Omer", is_premium_user := false,
        issue_type := some "billing" } :=
  (refund_gate_premium_only
    { name := some "Omer", is_premium_user := false, issue_type := some "billing" }
    billing_agent).2.2.1 rfl

/-- Claim C4: the restart gate returns false on every context whose `issue_type`
is not the literal "technical" — including an absent attribute (`getattr`
default `None`) and `issue_type = None` — so the restart action is never in
the offered-action set of any agent for such a call; it is offered exactly
when the agent carries the restart tool and `issue_type` equals
"technical". -/
theorem restart_gate_technical_only (ctx : UserContext) (a : Agent) :
    restart_is_enabled_raw none = false
    ∧ (ctx.issue_type ≠ some "technical" → restart_is_enabled ctx = false)
    ∧ (ctx.issue_type ≠ some "technical" → ToolName.restart ∉ offeredTools a ctx)
    ∧ (ToolName.restart ∈ offeredTools a ctx ↔
        ToolName.restart ∈ a.tools ∧ ctx.issue_type = some "technical") := by
  refine ⟨rfl, ?_, ?_, ?_⟩
  · intro h
    simp [restart_is_enabled, restart_is_enabled_raw, getattrD, h]
  · intro h hm
    rw [offeredTools, List.mem_filter] at hm
    have h2 := hm.2
    simp [tool_is_enabled, restart_is_enabled, restart_is_enabled_raw, getattrD, h] at h2
  · rw [offeredTools, List.mem_filter]
    constructor
    · rintro ⟨h1, h2⟩
      refine ⟨h1, ?_⟩
      simpa [tool_is_enabled, restart_is_enabled, restart_is_enabled_raw, getattrD]
        using h2
    · rintro ⟨h1, h2⟩
      refine ⟨h1, ?_⟩
      simp [tool_is_enabled, restart_is_enabled, restart_is_enabled_raw, getattrD, h2]

/-- Witness for C4: with `issue_type` still unset (`None`), the Tech
agent offers no restart action. -/
theorem restart_gate_technical_only_witness :
    ToolName.restart ∉ offeredTools tech_agent initialContext :=
  (restart_gate_technical_only initialContext tech_agent).2.2.1 (by decide)

/-- Claim C5: the only Context Record field written by local code after
construction is `issue_type` — `handle_query` replaces exactly that field
between the triage call and the dispatch call, and across any event stream
the loop body and the whole loop preserve `name` and `is_premium_user`
(gate predicates are pure Boolean functions of the context and mutate
nothing). -/
theorem context_write_frame (ctx : UserContext) (t p s : String)
    (b : LineBehavior) (evs : List InEvent) :
    (handle_query t p ctx).finalContext
        = { ctx with issue_type := some (normalize t) }
    ∧ (processLine ctx s b).ctx.name = ctx.name
    ∧ (processLine ctx s b).ctx.is_premium_user = ctx.is_premium_user
    ∧ (run_loop_from ctx evs).ctx.name = ctx.name
    ∧ (run_loop_from ctx evs).ctx.is_premium_user = ctx.is_premium_user :=
  ⟨rfl, (processLine_frame ctx s b).1, (processLine_frame ctx s b).2,
    (run_loop_from_frame evs ctx).1, (run_loop_from_frame evs ctx).2⟩

/-- Claim C6: a non-interrupt exception raised while handling a query is caught
at the outermost loop level and converted into one printed error message,
after which the loop keeps processing the remaining events with an
unchanged termination status; a session run can report interrupt
termination only when an interrupt event actually occurs. -/
theorem loop_survives_exception (ctx : UserContext) (s e : String)
    (b : LineBehavior) (rest : List InEvent)
    (hb : raisesWith b = some e) (hs : strFalsy (pyStrip s) = false) :
    (run_loop_from ctx (InEvent.line s b :: rest)).outputs
        = OutEvent.errorMsg e
            :: (run_loop_from (processLine ctx s b).ctx rest).outputs
    ∧ (run_loop_from ctx (InEvent.line s b :: rest)).term
        = (run_loop_from (processLine ctx s b).ctx rest).term
    ∧ (∀ evs : List InEvent, ∀ c : UserContext,
        (run_loop_from c evs).term = Termination.byInterrupt
        → InEvent.interrupt ∈ evs) := by
  refine ⟨?_, rfl, fun evs c h => term_byInterrupt_mem evs c h⟩
  show (processLine ctx s b).outputs
      ++ (run_loop_from (processLine ctx s b).ctx rest).outputs = _
  rw [processLine_raises_outputs ctx s e b hb hs]
  rfl

/-- Witness for C6 (Scenario E of the spec): a backend failure during triage
of the query "hi" yields exactly the error line, and the session is still
running afterwards. -/
theorem loop_survives_exception_witness :
    (run_loop_from initialContext
        [InEvent.line "hi" (LineBehavior.triageRaise "network down")]).outputs
      = [OutEvent.errorMsg "network down"]
    ∧ (run_loop_from initialContext
        [InEvent.line "hi" (LineBehavior.triageRaise "network down")]).term
      = Termination.stillRunning := by
  have h := loop_survives_exception initialContext "hi" "network down"
    (LineBehavior.triageRaise "network down") [] rfl (by decide)
  exact ⟨h.1.trans rfl, h.2.1.trans rfl⟩

/-- Claim C7: when the API-key credential is absent from the process environment,
startup raises the fatal error before the loop is entered, so the program
result is the startup error and no session (hence no query) is run. -/
theorem missing_api_key_fatal (env : String → Option String)
    (evs : List InEvent) (h : env "GEMINI_API_KEY" = none) :
    program env evs = Except.error "GEMINI_API_KEY is not set." := by
  unfold program startup
  rw [h]
  rfl

/-- Witness for C7: the empty environment. -/
theorem missing_api_key_fatal_witness :
    program (fun _ => none) [] = Except.error "GEMINI_API_KEY is not set." :=
  missing_api_key_fatal (fun _ => none) [] rfl

/-- Claim C8: an input line that is blank or whitespace-only produces no responder
invocation, no printed output and no context change, whatever the backend
would have done, and the loop run on the remaining events is unchanged. -/
theorem blank_line_skipped (ctx : UserContext) (s : String) (b : LineBehavior)
    (rest : List InEvent) (h : ∀ c ∈ s.data, c.isWhitespace = true) :
    processLine ctx s b = { ctx := ctx, outputs := [], invoked := [] }
    ∧ run_loop_from ctx (InEvent.line s b :: rest) = run_loop_from ctx rest := by
  have h1 : strFalsy (pyStrip s) = true := by
    show (stripList s.data).isEmpty = true
    rw [stripList_eq_nil s.data h]
    rfl
  have h2 := processLine_of_blank ctx s b h1
  refine ⟨h2, ?_⟩
  show ({ ctx := (run_loop_from (processLine ctx s b).ctx rest).ctx,
          outputs := (processLine ctx s b).outputs
            ++ (run_loop_from (processLine ctx s b).ctx rest).outputs,
          invoked := (processLine ctx s b).invoked
            ++ (run_loop_from (processLine ctx s b).ctx rest).invoked,
          term := (run_loop_from (processLine ctx s b).ctx rest).term }
        : SessionResult)
      = run_loop_from ctx rest
  rw [h2]
  simp only [List.nil_append]

/-- Witness for C8: a tab-and-spaces line is skipped even though the
backend was ready to answer. -/
theorem blank_line_skipped_witness :
    processLine initialContext "  \t " (LineBehavior.respond "Billing" "ok")
      = { ctx := initialContext, outputs := [], invoked := [] } :=
  (blank_line_skipped initialContext "  \t " (LineBehavior.respond "Billing" "ok")
    [] (by decide)).1

/-- Claim C9: the normalization applied to triage output (strip, then lower) is
idempotent. -/
theorem normalize_idem (s : String) : normalize (normalize s) = normalize s := by
  show String.mk ((stripList ((stripList s.data).map Char.toLower)).map Char.toLower)
      = String.mk ((stripList s.data).map Char.toLower)
  rw [stripList_map_toLower, stripList_idem, List.map_map]
  have h : (Char.toLower ∘ Char.toLower) = Char.toLower :=
    funext fun c => toLower_toLower c
  rw [h]

/-- Claim C10: the single context created at session start has name "Omer",
premium flag true and `issue_type` unset; since no local code writes the
premium flag, every responder invocation of every session run sees a
premium context (the refund gate condition holds at each of them), while
the first invocation of a session is the triage call on the initial
context, whose `issue_type` is still `None`, so the restart gate is false
there. -/
theorem initial_session_invariants (evs : List InEvent) :
    initialContext.name = some "Omer"
    ∧ initialContext.is_premium_user = true
    ∧ initialContext.issue_type = none
    ∧ (∀ pr ∈ (run_loop evs).invoked,
        pr.2.is_premium_user = true ∧ refund_is_enabled pr.2 = true)
    ∧ (∀ pr : ResponderId × UserContext, (run_loop evs).invoked.head? = some pr →
        pr.1 = ResponderId.triageBot ∧ pr.2 = initialContext
          ∧ restart_is_enabled pr.2 = false) := by
  refine ⟨rfl, rfl, rfl, ?_, ?_⟩
  · intro pr hpr
    have hm : pr ∈ (run_loop_from initialContext evs).invoked := hpr
    have hp := run_loop_from_invoked_premium evs initialContext rfl pr hm
    exact ⟨hp, by simp [refund_is_enabled, refund_is_enabled_raw, getattrD, hp]⟩
  · intro pr hpr
    have hh : (run_loop_from initialContext evs).invoked.head? = some pr := hpr
    have := run_loop_from_head_invoked evs initialContext pr hh
    subst this
    exact ⟨rfl, rfl, rfl⟩

/-- Witness for C10: in a one-query session the first invocation is the
triage call on the initial context, and the gates evaluate accordingly. -/
theorem initial_session_invariants_witness :
    refund_is_enabled initialContext = true
    ∧ restart_is_enabled initialContext = false := by
  have h := initial_session_invariants
    [InEvent.line "hi" (LineBehavior.respond "Billing" "ok")]
  refine ⟨(h.2.2.2.1 (ResponderId.triageBot, initialContext) ?_).2,
    (h.2.2.2.2 (ResponderId.triageBot, initialContext) ?_).2.2⟩
  · show (ResponderId.triageBot, initialContext)
        ∈ (run_loop [InEvent.line "hi" (LineBehavior.respond "Billing" "ok")]).invoked
    decide
  · decide

end CliAgent
